import Mathlib

/-
Verification of the PyCurveBug curve-tracer core (src/PyCurveBug.py).

The embedding models:
  * the frame decoder inside CurveBugApp.acquire (lines 1397-1411):
    little-endian 16-bit words masked to 12 bits, de-interleaved modulo 3;
  * the acquisition step itself (lines 1361-1447) as a function of the
    application state, the connection status, and the transport outcome;
  * the view operations fit_to_window (1816-1866), reset_view (1868-1872)
    and on_mouse_scroll (2014-2024), with Python floats modelled as
    rationals (all the arithmetic involved is exact on the inputs at stake).
-/

namespace PyCurveBug

/-- One 16-bit little-endian word: struct.unpack of bytes lo, hi
(line 1400 of the source). -/
def word16 (lo hi : Nat) : Nat := lo + 256 * hi

/-- The parse loop of lines 1398-1401: consume the byte list two bytes at a
time, mask each word with 0x0FFF (equivalently take it modulo 4096).
(In the source an odd trailing byte would raise inside the surrounding
try-block; decode only ever parses after the length-2016 check, so the
catch-all base case here is never reached with a single leftover byte
on any input that passes that check.) -/
def parseValues : List Nat → List Nat
  | [] => []
  | [_] => []
  | lo :: hi :: rest => word16 lo hi % 4096 :: parseValues rest

/-- Python slice l[0::3]: every third element starting at index 0
(lines 1406-1408 use the slices values[0::3], values[1::3], values[2::3]). -/
def stride3 {α : Type} : List α → List α
  | [] => []
  | [a] => [a]
  | [a, _] => [a]
  | a :: _ :: _ :: rest => a :: stride3 rest

/-- The three de-interleaved streams of one frame (lines 1406-1408). -/
structure Triplet where
  drive_voltage : List Nat
  ch1_raw : List Nat
  ch2_raw : List Nat
  deriving DecidableEq

/-- The decode step of acquire (lines 1394-1408): reject any payload whose
length is not 2016, parse the 16-bit words, reject a word count other than
1008, then split by index modulo 3. -/
def decode (data : List Nat) : Option Triplet :=
  if data.length ≠ 2016 then none
  else
    let values := parseValues data
    if values.length ≠ 1008 then none
    else some ⟨stride3 values, stride3 (values.drop 1), stride3 (values.drop 2)⟩

/-- Cast a decoded word list into the rational data space used by the
view-side model. -/
def qcast (l : List Nat) : List ℚ := List.map Nat.cast l

/-- The derived-current comprehension of lines 1410-1411:
current[i] = drive_voltage[i] - raw[i]. -/
def deriveCurrents (dv raw : List ℚ) : List ℚ :=
  List.zipWith (fun d c => d - c) dv raw

/-- The application state the claims are about: the per-variant sample
buffers, the active series, the mode and alternation flags, and the view
state (fields of CurveBugApp initialised at lines 1207-1241; numeric data
and view floats modelled as rationals). -/
structure AppState where
  ch1_std : List ℚ
  ch2_std : List ℚ
  ch1_voltage_std : List ℚ
  ch2_voltage_std : List ℚ
  drive_voltage_std : List ℚ
  ch1_weak : List ℚ
  ch2_weak : List ℚ
  ch1_voltage_weak : List ℚ
  ch2_voltage_weak : List ℚ
  drive_voltage_weak : List ℚ
  ch1 : List ℚ
  ch2 : List ℚ
  ch1_voltage : List ℚ
  ch2_voltage : List ℚ
  drive_voltage : List ℚ
  frame_count : Nat
  paused : Bool
  single_channel : Bool
  auto_scale : Bool
  excitation_mode : Nat
  alt_use_weak : Bool
  last_mode_was_weak : Bool
  zoom_level : ℚ
  pan_offset_x : ℚ
  pan_offset_y : ℚ
  deriving DecidableEq

/-- The state set up by the constructor (lines 1208-1241): empty buffers,
Strong mode, toggles cleared, zoom 1, pan (0, 0). -/
def initialState : AppState where
  ch1_std := []
  ch2_std := []
  ch1_voltage_std := []
  ch2_voltage_std := []
  drive_voltage_std := []
  ch1_weak := []
  ch2_weak := []
  ch1_voltage_weak := []
  ch2_voltage_weak := []
  drive_voltage_weak := []
  ch1 := []
  ch2 := []
  ch1_voltage := []
  ch2_voltage := []
  drive_voltage := []
  frame_count := 0
  paused := false
  single_channel := false
  auto_scale := false
  excitation_mode := 0
  alt_use_weak := false
  last_mode_was_weak := false
  zoom_level := 1
  pan_offset_x := 0
  pan_offset_y := 0

/-- What the transport layer delivered during one acquire call: either a
lower-level exception somewhere in reset_input_buffer/write/read
(lines 1383-1392, caught at 1445), or the bytes accumulated by the read
loop when the 0.5 s budget ran out or 2016 bytes arrived (lines 1386-1392;
the loop never collects more than 2016 bytes). -/
inductive AcquireInput where
  | ioFault : AcquireInput
  | received : List Nat → AcquireInput

/-- The command decision of lines 1367-1380: Strong mode (0) requests 'T'
and stores as strong, Weak mode (1) requests 'W' and stores as weak, any
other mode (Alternating, 2) follows the alt_use_weak toggle. -/
def storeAsWeak (st : AppState) : Bool :=
  if st.excitation_mode = 0 then false
  else if st.excitation_mode = 1 then true
  else st.alt_use_weak

/-- The toggle update of line 1381: in the Alternating branch (any mode
other than 0 and 1) alt_use_weak is flipped right after the command is
chosen, before any byte is read. -/
def afterCommandChoice (st : AppState) : AppState :=
  if st.excitation_mode = 0 ∨ st.excitation_mode = 1 then st
  else { st with alt_use_weak := !st.alt_use_weak }

/-- The store step of lines 1413-1441: overwrite the chosen variant's five
buffers, record which variant was last, then point the active series at the
buffers just stored. -/
def recordResult (st : AppState) (asWeak : Bool) (t : Triplet) : AppState :=
  let dv := qcast t.drive_voltage
  let r1 := qcast t.ch1_raw
  let r2 := qcast t.ch2_raw
  let c1 := deriveCurrents dv r1
  let c2 := deriveCurrents dv r2
  if asWeak then
    { st with
      ch1_voltage_weak := r1
      ch2_voltage_weak := r2
      ch1_weak := c1
      ch2_weak := c2
      drive_voltage_weak := dv
      last_mode_was_weak := true
      ch1_voltage := r1
      ch2_voltage := r2
      ch1 := c1
      ch2 := c2
      drive_voltage := dv }
  else
    { st with
      ch1_voltage_std := r1
      ch2_voltage_std := r2
      ch1_std := c1
      ch2_std := c2
      drive_voltage_std := dv
      last_mode_was_weak := false
      ch1_voltage := r1
      ch2_voltage := r2
      ch1 := c1
      ch2 := c2
      drive_voltage := dv }

/-- CurveBugApp.acquire (lines 1361-1447). conn_open models
(serial is not None and serial.is_open); the early return at 1363-1364
happens before the command decision, so nothing changes in that case.
After the command choice (which flips the Alternating toggle) the call
fails without touching the store on a transport fault or a bad frame, and
on a 2016-byte frame stores and activates the decoded triplet. -/
def acquire (st : AppState) (conn_open : Bool) (inp : AcquireInput) :
    Bool × AppState :=
  if ¬ conn_open then (false, st)
  else
    let st1 := afterCommandChoice st
    match inp with
    | .ioFault => (false, st1)
    | .received data =>
      match decode data with
      | none => (false, st1)
      | some t => (true, recordResult st1 (storeAsWeak st) t)

/-- The equality-of-observable-store predicate used by the atomicity
claims: both variants' buffers, the active series and the last-variant
flag agree. -/
def storeUntouched (a b : AppState) : Prop :=
  a.ch1_std = b.ch1_std ∧ a.ch2_std = b.ch2_std ∧
  a.ch1_voltage_std = b.ch1_voltage_std ∧ a.ch2_voltage_std = b.ch2_voltage_std ∧
  a.drive_voltage_std = b.drive_voltage_std ∧
  a.ch1_weak = b.ch1_weak ∧ a.ch2_weak = b.ch2_weak ∧
  a.ch1_voltage_weak = b.ch1_voltage_weak ∧ a.ch2_voltage_weak = b.ch2_voltage_weak ∧
  a.drive_voltage_weak = b.drive_voltage_weak ∧
  a.ch1 = b.ch1 ∧ a.ch2 = b.ch2 ∧
  a.ch1_voltage = b.ch1_voltage ∧ a.ch2_voltage = b.ch2_voltage ∧
  a.drive_voltage = b.drive_voltage ∧
  a.last_mode_was_weak = b.last_mode_was_weak

/-- A frame of 2016 zero bytes, used to exercise concrete successful
acquisitions. -/
def zeroFrame : List Nat := List.replicate 2016 0

/-- The triplet zeroFrame decodes to. -/
def zeroTriplet : Triplet :=
  ⟨List.replicate 336 0, List.replicate 336 0, List.replicate 336 0⟩

/-- The initial state after cycling to Alternating mode (line 1940 applied
twice): toggle still cleared. -/
def altInitialState : AppState := { initialState with excitation_mode := 2 }

/-- Alternating mode with the toggle set, so the next request is Weak. -/
def altWeakState : AppState :=
  { initialState with excitation_mode := 2, alt_use_weak := true }

/-- Device upper rail constant of line 32, used by the fixed-scale view. -/
def ADC_MAX : ℚ := 2800

/-- list_min of lines 42-44: minimum of a list, 0 when empty. -/
def list_min (l : List ℚ) : ℚ :=
  match l with
  | [] => 0
  | a :: r => r.foldl min a

/-- list_max of lines 47-49: maximum of a list, 0 when empty. -/
def list_max (l : List ℚ) : ℚ :=
  match l with
  | [] => 0
  | a :: r => r.foldl max a

/-- Fixed-scale upper current bound: y_range / 8 with
y_range = ADC_MAX - 700 (lines 1545-1547 and 1845-1847). -/
def baseYMax : ℚ := (ADC_MAX - 700) / 8

/-- Fixed-scale lower current bound: -y_range * 7 / 8. -/
def baseYMin : ℚ := -(ADC_MAX - 700) * 7 / 8

/-- The all_x collection of fit_to_window (lines 1821-1826): all four
voltage buffers when Alternating with both variants populated, otherwise
the active voltage buffers. -/
def fitAllX (st : AppState) : List ℚ :=
  if st.excitation_mode = 2 ∧ 0 < st.ch1_std.length ∧ 0 < st.ch1_weak.length
  then
    st.ch1_voltage_std ++ st.ch2_voltage_std
      ++ st.ch1_voltage_weak ++ st.ch2_voltage_weak
  else
    st.ch1_voltage ++ st.ch2_voltage

/-- The all_y collection of fit_to_window (lines 1821-1826): the matching
current buffers. -/
def fitAllY (st : AppState) : List ℚ :=
  if st.excitation_mode = 2 ∧ 0 < st.ch1_std.length ∧ 0 < st.ch1_weak.length
  then
    st.ch1_std ++ st.ch2_std ++ st.ch1_weak ++ st.ch2_weak
  else
    st.ch1 ++ st.ch2

/-- data_x_min after the 20% padding of lines 1833-1835. -/
def fitDataXMin (st : AppState) : ℚ :=
  list_min (fitAllX st)
    - (list_max (fitAllX st) - list_min (fitAllX st)) * (1 / 5)

/-- data_x_max after the 20% padding of lines 1833-1836. -/
def fitDataXMax (st : AppState) : ℚ :=
  list_max (fitAllX st)
    + (list_max (fitAllX st) - list_min (fitAllX st)) * (1 / 5)

/-- data_y_min after the 20% padding of lines 1834-1837. -/
def fitDataYMin (st : AppState) : ℚ :=
  list_min (fitAllY st)
    - (list_max (fitAllY st) - list_min (fitAllY st)) * (1 / 5)

/-- data_y_max after the 20% padding of lines 1834-1838. -/
def fitDataYMax (st : AppState) : ℚ :=
  list_max (fitAllY st)
    + (list_max (fitAllY st) - list_min (fitAllY st)) * (1 / 5)

/-- zoom_x of line 1852: base_x_range over the padded data x range, 1 when
that range is not positive. -/
def fitZoomX (st : AppState) : ℚ :=
  if 0 < fitDataXMax st - fitDataXMin st
  then (ADC_MAX - 0) / (fitDataXMax st - fitDataXMin st)
  else 1

/-- zoom_y of line 1853: base_y_range over the padded data y range, 1 when
that range is not positive. -/
def fitZoomY (st : AppState) : ℚ :=
  if 0 < fitDataYMax st - fitDataYMin st
  then (baseYMax - baseYMin) / (fitDataYMax st - fitDataYMin st)
  else 1

/-- The zoom chosen by fit_to_window (lines 1855-1857): the smaller fit
factor, clamped from above at 1. -/
def fitZoom (st : AppState) : ℚ :=
  if 1 < min (fitZoomX st) (fitZoomY st) then 1
  else min (fitZoomX st) (fitZoomY st)

/-- fit_to_window (lines 1816-1866): a no-op when either active series is
empty; otherwise set the zoom to the clamped smaller fit factor and the pan
offsets to the difference between the padded data centre and the base
centre (lines 1859-1866). -/
def fit_to_window (st : AppState) : AppState :=
  if st.ch1 = [] ∨ st.ch2 = [] then st
  else
    { st with
      zoom_level := fitZoom st
      pan_offset_x := (fitDataXMin st + fitDataXMax st) / 2 - (0 + ADC_MAX) / 2
      pan_offset_y :=
        (fitDataYMin st + fitDataYMax st) / 2 - (baseYMin + baseYMax) / 2 }

/-- reset_view (lines 1868-1872). -/
def reset_view (st : AppState) : AppState :=
  { st with zoom_level := 1, pan_offset_x := 0, pan_offset_y := 0 }

/-- on_mouse_scroll (lines 2014-2024) with the settings surface inactive:
in fixed mode an upward step multiplies the zoom by 1.2 and a downward (or
zero) step divides by 1.2 and clamps at 0.1 from below; auto-scale ignores
scrolling. -/
def on_mouse_scroll (st : AppState) (scroll_y : ℚ) : AppState :=
  if st.auto_scale then st
  else if 0 < scroll_y then
    { st with zoom_level := st.zoom_level * (6 / 5) }
  else
    { st with zoom_level := max (1 / 10) (st.zoom_level / (6 / 5)) }

/-- Fixed-mode viewport lower x bound from draw_plot (lines 1543-1556):
centre shifted by pan, minus half the zoom-scaled visible range. -/
def fixedXMin (st : AppState) : ℚ :=
  (ADC_MAX + 0) / 2 + st.pan_offset_x - ((ADC_MAX - 0) / st.zoom_level) / 2

/-- Fixed-mode viewport upper x bound (lines 1543-1556). -/
def fixedXMax (st : AppState) : ℚ :=
  (ADC_MAX + 0) / 2 + st.pan_offset_x + ((ADC_MAX - 0) / st.zoom_level) / 2

/-- Fixed-mode viewport lower y bound (lines 1545-1558). -/
def fixedYMin (st : AppState) : ℚ :=
  (baseYMax + baseYMin) / 2 + st.pan_offset_y
    - ((baseYMax - baseYMin) / st.zoom_level) / 2

/-- Fixed-mode viewport upper y bound (lines 1545-1558). -/
def fixedYMax (st : AppState) : ℚ :=
  (baseYMax + baseYMin) / 2 + st.pan_offset_y
    + ((baseYMax - baseYMin) / st.zoom_level) / 2

/-- All voltage buffers hold values decoded from valid frames: masked words
in [0, 4095]. -/
def xDataBounded (st : AppState) : Prop :=
  (∀ v ∈ st.ch1_voltage_std, 0 ≤ v ∧ v ≤ 4095) ∧
  (∀ v ∈ st.ch2_voltage_std, 0 ≤ v ∧ v ≤ 4095) ∧
  (∀ v ∈ st.ch1_voltage_weak, 0 ≤ v ∧ v ≤ 4095) ∧
  (∀ v ∈ st.ch2_voltage_weak, 0 ≤ v ∧ v ≤ 4095) ∧
  (∀ v ∈ st.ch1_voltage, 0 ≤ v ∧ v ≤ 4095) ∧
  (∀ v ∈ st.ch2_voltage, 0 ≤ v ∧ v ≤ 4095)

/-- All current buffers hold differences of masked words: values in
[-4095, 4095]. -/
def yDataBounded (st : AppState) : Prop :=
  (∀ v ∈ st.ch1_std, -4095 ≤ v ∧ v ≤ 4095) ∧
  (∀ v ∈ st.ch2_std, -4095 ≤ v ∧ v ≤ 4095) ∧
  (∀ v ∈ st.ch1_weak, -4095 ≤ v ∧ v ≤ 4095) ∧
  (∀ v ∈ st.ch2_weak, -4095 ≤ v ∧ v ≤ 4095) ∧
  (∀ v ∈ st.ch1, -4095 ≤ v ∧ v ≤ 4095) ∧
  (∀ v ∈ st.ch2, -4095 ≤ v ∧ v ≤ 4095)

/-- A state holding one decoded point, used to exercise the view claims. -/
def fitDemoState : AppState :=
  { initialState with
    ch1 := [0]
    ch2 := [0]
    ch1_voltage := [2048]
    ch2_voltage := [2048] }

end PyCurveBug

namespace PyCurveBug

theorem parseValues_length (data : List Nat) :
    (parseValues data).length = data.length / 2 := by
  induction data using parseValues.induct with
  | case1 => simp [parseValues]
  | case2 a => simp [parseValues]
  | case3 lo hi rest ih => simp [parseValues, ih]; omega

theorem stride3_length {α : Type} (l : List α) :
    (stride3 l).length = (l.length + 2) / 3 := by
  induction l using stride3.induct with
  | case1 => simp [stride3]
  | case2 a => simp [stride3]
  | case3 a b => simp [stride3]
  | case4 a b c rest ih => simp [stride3, ih]; omega

theorem parseValues_le (data : List Nat) :
    ∀ v ∈ parseValues data, v ≤ 4095 := by
  induction data using parseValues.induct with
  | case1 => simp [parseValues]
  | case2 a => simp [parseValues]
  | case3 lo hi rest ih =>
    intro v hv
    simp only [parseValues, List.mem_cons] at hv
    rcases hv with rfl | h
    · have := Nat.mod_lt (word16 lo hi) (show 0 < 4096 by omega)
      omega
    · exact ih v h

theorem parseValues_getD (data : List Nat) :
    ∀ i, 2 * i + 1 < data.length →
      (parseValues data).getD i 0
        = (data.getD (2 * i) 0 + 256 * data.getD (2 * i + 1) 0) % 4096 := by
  induction data using parseValues.induct with
  | case1 => intro i h; simp at h
  | case2 a => intro i h; simp at h
  | case3 lo hi rest ih =>
    intro i h
    match i with
    | 0 => simp [parseValues, word16]
    | (n+1) =>
      have h2 : 2 * n + 1 < rest.length := by
        simp only [List.length_cons] at h; omega
      have e1 : 2 * (n + 1) = 2 * n + 1 + 1 := by omega
      rw [e1]
      simp only [parseValues, List.getD_cons_succ]
      exact ih n h2

theorem qcast_length (l : List Nat) : (qcast l).length = l.length := by
  unfold qcast
  rw [List.length_map]

theorem deriveCurrents_getD_add (dv r : List ℚ) (i : Nat)
    (h1 : i < dv.length) (h2 : i < r.length) :
    (deriveCurrents dv r).getD i 0 + r.getD i 0 = dv.getD i 0 := by
  induction dv generalizing r i with
  | nil => simp at h1
  | cons d dtl ih =>
    cases r with
    | nil => simp at h2
    | cons c ctl =>
      match i with
      | 0 => simp [deriveCurrents]
      | (n+1) =>
        simp only [deriveCurrents, List.zipWith_cons_cons, List.getD_cons_succ]
        exact ih ctl n (by simpa using h1) (by simpa using h2)

theorem parseValues_replicate_zero :
    ∀ n, parseValues (List.replicate (2 * n) 0) = List.replicate n 0 := by
  intro n
  induction n with
  | zero => simp [parseValues]
  | succ m ih =>
    have h2 : 2 * (m + 1) = (2 * m) + 1 + 1 := by omega
    rw [h2, List.replicate_succ, List.replicate_succ]
    show word16 0 0 % 4096 :: parseValues (List.replicate (2 * m) 0) = _
    rw [ih]
    rfl

theorem stride3_replicate {α : Type} (a : α) :
    ∀ n, stride3 (List.replicate n a) = List.replicate ((n + 2) / 3) a := by
  intro n
  induction n using Nat.strong_induction_on with
  | _ n ih =>
    match n with
    | 0 => simp [stride3]
    | 1 => simp [stride3]
    | 2 => simp [stride3, List.replicate]
    | (m+3) =>
      have hr : List.replicate (m + 3) a = a :: a :: a :: List.replicate m a := by
        simp [List.replicate_succ]
      rw [hr]
      show a :: stride3 (List.replicate m a) = _
      rw [ih m (by omega)]
      have hd : (m + 3 + 2) / 3 = (m + 2) / 3 + 1 := by omega
      rw [hd, List.replicate_succ]

theorem decode_zeroFrame : decode zeroFrame = some zeroTriplet := by
  have hp : parseValues zeroFrame = List.replicate 1008 0 := by
    have h : zeroFrame = List.replicate (2 * 1008) 0 := by
      show List.replicate 2016 0 = _
      congr 1
    rw [h, parseValues_replicate_zero]
  have hl : zeroFrame.length = 2016 := by rw [zeroFrame, List.length_replicate]
  simp only [decode, hl, hp]
  norm_num [List.drop_replicate, stride3_replicate, zeroTriplet]

/-- C4: frame decoding fails if and only if the payload length is not
exactly 2016 bytes; for a 2016-byte payload the word count is necessarily
1008, so the independent word-count check can never fire. -/
theorem decode_none_iff_length (data : List Nat) :
    decode data = none ↔ data.length ≠ 2016 := by
  unfold decode
  by_cases h : data.length = 2016
  · have hv : (parseValues data).length = 1008 := by rw [parseValues_length, h]
    simp [h, hv]
  · simp [h]

/-- C9: every decoded word is the low 12 bits (value modulo 4096) of its
little-endian 16-bit word, hence at most 4095; raw bits 0xFFFF decode to
0x0FFF and raw bits 0x1000 decode to 0x0000. -/
theorem sample_word_masking (data : List Nat) :
    (∀ v ∈ parseValues data, v ≤ 4095) ∧
    (∀ i, 2 * i + 1 < data.length →
      (parseValues data).getD i 0
        = (data.getD (2 * i) 0 + 256 * data.getD (2 * i + 1) 0) % 4096) ∧
    parseValues [255, 255] = [4095] ∧ parseValues [0, 16] = [0] :=
  ⟨parseValues_le data, parseValues_getD data, by decide, by decide⟩

/-- C9 witness: the masking facts evaluated on the concrete frame bytes
ff ff (word 0xFFFF). -/
theorem sample_word_masking_witness :
    (4095 ∈ parseValues [255, 255] ∧ 4095 ≤ 4095) ∧
    (2 * 0 + 1 < ([255, 255] : List Nat).length ∧
      (parseValues [255, 255]).getD 0 0
        = (([255, 255] : List Nat).getD (2 * 0) 0
            + 256 * ([255, 255] : List Nat).getD (2 * 0 + 1) 0) % 4096) :=
  ⟨⟨by decide, (sample_word_masking [255, 255]).1 4095 (by decide)⟩,
    ⟨by decide, (sample_word_masking [255, 255]).2.1 0 (by decide)⟩⟩

/-- C1: every 2016-byte input decodes to three streams of 336 words each,
and the derived currents satisfy ch1_current[i] + ch1_raw[i] =
drive_voltage[i] (and symmetrically for channel 2) at every index. -/
theorem decode_triplet_current_relation (data : List Nat)
    (h : data.length = 2016) :
    ∃ t : Triplet, decode data = some t ∧
      t.drive_voltage.length = 336 ∧ t.ch1_raw.length = 336 ∧
      t.ch2_raw.length = 336 ∧
      (∀ i < 336,
        (deriveCurrents (qcast t.drive_voltage) (qcast t.ch1_raw)).getD i 0
            + (qcast t.ch1_raw).getD i 0 = (qcast t.drive_voltage).getD i 0) ∧
      (∀ i < 336,
        (deriveCurrents (qcast t.drive_voltage) (qcast t.ch2_raw)).getD i 0
            + (qcast t.ch2_raw).getD i 0 = (qcast t.drive_voltage).getD i 0) := by
  have hv : (parseValues data).length = 1008 := by rw [parseValues_length, h]
  have l0 : (stride3 (parseValues data)).length = 336 := by
    rw [stride3_length, hv]
  have l1 : (stride3 ((parseValues data).drop 1)).length = 336 := by
    rw [stride3_length, List.length_drop, hv]
  have l2 : (stride3 ((parseValues data).drop 2)).length = 336 := by
    rw [stride3_length, List.length_drop, hv]
  refine ⟨⟨stride3 (parseValues data), stride3 ((parseValues data).drop 1),
    stride3 ((parseValues data).drop 2)⟩, ?_, l0, l1, l2, ?_, ?_⟩
  · unfold decode
    simp [h, hv]
  · intro i hi
    exact deriveCurrents_getD_add _ _ i
      (by rw [qcast_length, l0]; exact hi)
      (by rw [qcast_length, l1]; exact hi)
  · intro i hi
    exact deriveCurrents_getD_add _ _ i
      (by rw [qcast_length, l0]; exact hi)
      (by rw [qcast_length, l2]; exact hi)

/-- C1 witness: the decode result and current relation instantiated on the
all-zero 2016-byte frame. -/
theorem decode_triplet_current_relation_witness :
    zeroFrame.length = 2016 ∧
    (∃ t : Triplet, decode zeroFrame = some t ∧
      t.drive_voltage.length = 336 ∧ t.ch1_raw.length = 336 ∧
      t.ch2_raw.length = 336 ∧
      (∀ i < 336,
        (deriveCurrents (qcast t.drive_voltage) (qcast t.ch1_raw)).getD i 0
            + (qcast t.ch1_raw).getD i 0 = (qcast t.drive_voltage).getD i 0) ∧
      (∀ i < 336,
        (deriveCurrents (qcast t.drive_voltage) (qcast t.ch2_raw)).getD i 0
            + (qcast t.ch2_raw).getD i 0 = (qcast t.drive_voltage).getD i 0)) :=
  ⟨by rw [zeroFrame, List.length_replicate],
    decode_triplet_current_relation zeroFrame
      (by rw [zeroFrame, List.length_replicate])⟩

theorem storeUntouched_refl (st : AppState) : storeUntouched st st := by
  simp [storeUntouched]

theorem afterCommandChoice_storeUntouched (st : AppState) :
    storeUntouched (afterCommandChoice st) st := by
  unfold afterCommandChoice
  split
  · exact storeUntouched_refl st
  · simp [storeUntouched]

theorem afterCommandChoice_mode (st : AppState) :
    (afterCommandChoice st).excitation_mode = st.excitation_mode := by
  unfold afterCommandChoice
  split <;> rfl

theorem afterCommandChoice_alt_flip (st : AppState)
    (h0 : st.excitation_mode ≠ 0) (h1 : st.excitation_mode ≠ 1) :
    (afterCommandChoice st).alt_use_weak = !st.alt_use_weak := by
  unfold afterCommandChoice
  rw [if_neg]
  rintro (h | h)
  · exact h0 h
  · exact h1 h

theorem recordResult_alt_use_weak (st : AppState) (asWeak : Bool) (t : Triplet) :
    (recordResult st asWeak t).alt_use_weak = st.alt_use_weak := by
  cases asWeak <;> simp [recordResult]

theorem recordResult_mode (st : AppState) (asWeak : Bool) (t : Triplet) :
    (recordResult st asWeak t).excitation_mode = st.excitation_mode := by
  cases asWeak <;> simp [recordResult]

theorem acquire_fst_false_state (st : AppState) (conn : Bool)
    (inp : AcquireInput) (h : (acquire st conn inp).1 = false) :
    (acquire st conn inp).2 = st ∨
    (acquire st conn inp).2 = afterCommandChoice st := by
  cases conn
  · left
    simp [acquire]
  · cases inp with
    | ioFault =>
      right
      simp [acquire]
    | received data =>
      cases hd : decode data with
      | none =>
        right
        simp [acquire, hd]
      | some t =>
        exfalso
        simp [acquire, hd] at h

theorem acquire_success_form (st : AppState) (conn : Bool)
    (inp : AcquireInput) (h : (acquire st conn inp).1 = true) :
    ∃ data t, inp = AcquireInput.received data ∧ decode data = some t ∧
      acquire st conn inp
        = (true, recordResult (afterCommandChoice st) (storeAsWeak st) t) := by
  cases conn
  · simp [acquire] at h
  · cases inp with
    | ioFault => simp [acquire] at h
    | received data =>
      cases hd : decode data with
      | none => simp [acquire, hd] at h
      | some t => exact ⟨data, t, rfl, hd, by simp [acquire, hd]⟩

/-- C10: with no open serial connection an acquisition attempt fails
immediately and returns the state entirely unchanged, in every mode. -/
theorem acquire_no_connection_noop (st : AppState) (inp : AcquireInput) :
    acquire st false inp = (false, st) := by
  simp [acquire]

/-- C3: a failed acquisition attempt (no connection, transport fault,
timeout-short frame, wrong-length frame or wrong word count) leaves every
per-variant buffer, the active series and the last-variant flag exactly as
they were. -/
theorem acquire_failure_atomic (st : AppState) (conn : Bool)
    (inp : AcquireInput) (h : (acquire st conn inp).1 = false) :
    storeUntouched (acquire st conn inp).2 st := by
  rcases acquire_fst_false_state st conn inp h with he | he
  · rw [he]
    exact storeUntouched_refl st
  · rw [he]
    exact afterCommandChoice_storeUntouched st

/-- C3 witness: a concrete failing attempt, the empty frame (a timeout with
zero bytes accumulated) from the initial state. -/
theorem acquire_failure_atomic_witness :
    (acquire initialState true (AcquireInput.received [])).1 = false ∧
    storeUntouched (acquire initialState true (AcquireInput.received [])).2
      initialState :=
  ⟨by decide,
    acquire_failure_atomic initialState true (AcquireInput.received [])
      (by decide)⟩

/-- C2 (counterexample): in Alternating mode, an acquisition attempt that
fails (here: a timeout that accumulated zero bytes) nevertheless flips
alt_use_weak, because line 1381 flips the toggle before any byte is read.
The claim that the toggle's new value equals its old value when the
acquisition fails is therefore false. -/
theorem alt_toggle_flips_on_failure_cex :
    (acquire altInitialState true (AcquireInput.received [])).1 = false ∧
    altInitialState.alt_use_weak = false ∧
    (acquire altInitialState true (AcquireInput.received [])).2.alt_use_weak
      = true := by
  decide

/-- C2 (amended): in Alternating mode the toggle alt_use_weak flips on
every acquisition attempt that reaches the command decision (that is,
whenever a connection is open), whether the acquisition then succeeds or
fails; only an attempt rejected for lack of an open connection leaves it
unchanged. -/
theorem alt_toggle_flips_every_attempt (st : AppState) (inp : AcquireInput)
    (h0 : st.excitation_mode ≠ 0) (h1 : st.excitation_mode ≠ 1) :
    (acquire st true inp).2.alt_use_weak = !st.alt_use_weak ∧
    ∀ inp2, (acquire st false inp2).2.alt_use_weak = st.alt_use_weak := by
  constructor
  · have hac : (afterCommandChoice st).alt_use_weak = !st.alt_use_weak :=
      afterCommandChoice_alt_flip st h0 h1
    cases inp with
    | ioFault => simpa [acquire] using hac
    | received data =>
      cases hd : decode data with
      | none => simpa [acquire, hd] using hac
      | some t =>
        rw [show (acquire st true (AcquireInput.received data)).2
            = recordResult (afterCommandChoice st) (storeAsWeak st) t by
          simp [acquire, hd]]
        rw [recordResult_alt_use_weak]
        exact hac
  · intro inp2
    simp [acquire]

/-- C2 (amended) witness: the flip observed on the concrete failing attempt
from the Alternating initial state. -/
theorem alt_toggle_flips_every_attempt_witness :
    (altInitialState.excitation_mode ≠ 0 ∧ altInitialState.excitation_mode ≠ 1) ∧
    ((acquire altInitialState true (AcquireInput.received [])).2.alt_use_weak
        = !altInitialState.alt_use_weak ∧
      ∀ inp2,
        (acquire altInitialState false inp2).2.alt_use_weak
          = altInitialState.alt_use_weak) :=
  ⟨⟨by decide, by decide⟩,
    alt_toggle_flips_every_attempt altInitialState (AcquireInput.received [])
      (by decide) (by decide)⟩

theorem recordResult_weak_active (s : AppState) (t : Triplet) :
    (recordResult s true t).ch1 = (recordResult s true t).ch1_weak ∧
    (recordResult s true t).ch2 = (recordResult s true t).ch2_weak ∧
    (recordResult s true t).ch1_voltage
      = (recordResult s true t).ch1_voltage_weak ∧
    (recordResult s true t).ch2_voltage
      = (recordResult s true t).ch2_voltage_weak ∧
    (recordResult s true t).drive_voltage
      = (recordResult s true t).drive_voltage_weak ∧
    (recordResult s true t).last_mode_was_weak = true := by
  simp [recordResult]

theorem recordResult_std_active (s : AppState) (t : Triplet) :
    (recordResult s false t).ch1 = (recordResult s false t).ch1_std ∧
    (recordResult s false t).ch2 = (recordResult s false t).ch2_std ∧
    (recordResult s false t).ch1_voltage
      = (recordResult s false t).ch1_voltage_std ∧
    (recordResult s false t).ch2_voltage
      = (recordResult s false t).ch2_voltage_std ∧
    (recordResult s false t).drive_voltage
      = (recordResult s false t).drive_voltage_std ∧
    (recordResult s false t).last_mode_was_weak = false := by
  simp [recordResult]

/-- C8: a successful acquisition overwrites only the requested variant's
buffers: storing Weak leaves the five std buffers untouched and sets the
last-variant flag to Weak, and storing Strong leaves the five weak buffers
untouched and clears the flag. -/
theorem store_overwrites_only_variant (st : AppState) (conn : Bool)
    (inp : AcquireInput) (h : (acquire st conn inp).1 = true) :
    (storeAsWeak st = true →
      (acquire st conn inp).2.ch1_std = st.ch1_std ∧
      (acquire st conn inp).2.ch2_std = st.ch2_std ∧
      (acquire st conn inp).2.ch1_voltage_std = st.ch1_voltage_std ∧
      (acquire st conn inp).2.ch2_voltage_std = st.ch2_voltage_std ∧
      (acquire st conn inp).2.drive_voltage_std = st.drive_voltage_std ∧
      (acquire st conn inp).2.last_mode_was_weak = true) ∧
    (storeAsWeak st = false →
      (acquire st conn inp).2.ch1_weak = st.ch1_weak ∧
      (acquire st conn inp).2.ch2_weak = st.ch2_weak ∧
      (acquire st conn inp).2.ch1_voltage_weak = st.ch1_voltage_weak ∧
      (acquire st conn inp).2.ch2_voltage_weak = st.ch2_voltage_weak ∧
      (acquire st conn inp).2.drive_voltage_weak = st.drive_voltage_weak ∧
      (acquire st conn inp).2.last_mode_was_weak = false) := by
  obtain ⟨data, t, hinp, hd, he⟩ := acquire_success_form st conn inp h
  obtain ⟨a1, a2, a3, a4, a5, a6, a7, a8, a9, a10, a11, a12, a13, a14, a15, a16⟩ :=
    afterCommandChoice_storeUntouched st
  rw [he]
  constructor
  · intro hwk
    rw [hwk]
    refine ⟨?_, ?_, ?_, ?_, ?_, ?_⟩ <;>
      simp [recordResult, a1, a2, a3, a4, a5]
  · intro hstd
    rw [hstd]
    refine ⟨?_, ?_, ?_, ?_, ?_, ?_⟩ <;>
      simp [recordResult, a6, a7, a8, a9, a10]

/-- C8 witness: a successful Weak acquisition from the Alternating state
whose toggle requests Weak, on the all-zero frame. -/
theorem store_overwrites_only_variant_witness :
    (acquire altWeakState true (AcquireInput.received zeroFrame)).1 = true ∧
    storeAsWeak altWeakState = true ∧
    ((acquire altWeakState true (AcquireInput.received zeroFrame)).2.ch1_std
        = altWeakState.ch1_std ∧
      (acquire altWeakState true (AcquireInput.received zeroFrame)).2.ch2_std
        = altWeakState.ch2_std ∧
      (acquire altWeakState true
          (AcquireInput.received zeroFrame)).2.ch1_voltage_std
        = altWeakState.ch1_voltage_std ∧
      (acquire altWeakState true
          (AcquireInput.received zeroFrame)).2.ch2_voltage_std
        = altWeakState.ch2_voltage_std ∧
      (acquire altWeakState true
          (AcquireInput.received zeroFrame)).2.drive_voltage_std
        = altWeakState.drive_voltage_std ∧
      (acquire altWeakState true
          (AcquireInput.received zeroFrame)).2.last_mode_was_weak = true) := by
  have hs : (acquire altWeakState true (AcquireInput.received zeroFrame)).1
      = true := by
    simp [acquire, decode_zeroFrame]
  refine ⟨hs, by decide, ?_⟩
  exact (store_overwrites_only_variant altWeakState true
    (AcquireInput.received zeroFrame) hs).1 (by decide)

/-- C7: in Alternating mode with the toggle requesting Weak, a successful
acquisition leaves the active series pointing at the Weak buffers (whatever
was stored before), and the next successful acquisition points them at the
Strong buffers. -/
theorem alternating_active_matches_last_variant (st : AppState)
    (i1 i2 : AcquireInput) (hm : st.excitation_mode = 2)
    (hwk : st.alt_use_weak = true)
    (h1 : (acquire st true i1).1 = true)
    (h2 : (acquire (acquire st true i1).2 true i2).1 = true) :
    ((acquire st true i1).2.ch1 = (acquire st true i1).2.ch1_weak ∧
      (acquire st true i1).2.ch2 = (acquire st true i1).2.ch2_weak ∧
      (acquire st true i1).2.ch1_voltage
        = (acquire st true i1).2.ch1_voltage_weak ∧
      (acquire st true i1).2.ch2_voltage
        = (acquire st true i1).2.ch2_voltage_weak ∧
      (acquire st true i1).2.drive_voltage
        = (acquire st true i1).2.drive_voltage_weak ∧
      (acquire st true i1).2.last_mode_was_weak = true) ∧
    ((acquire (acquire st true i1).2 true i2).2.ch1
        = (acquire (acquire st true i1).2 true i2).2.ch1_std ∧
      (acquire (acquire st true i1).2 true i2).2.ch2
        = (acquire (acquire st true i1).2 true i2).2.ch2_std ∧
      (acquire (acquire st true i1).2 true i2).2.ch1_voltage
        = (acquire (acquire st true i1).2 true i2).2.ch1_voltage_std ∧
      (acquire (acquire st true i1).2 true i2).2.ch2_voltage
        = (acquire (acquire st true i1).2 true i2).2.ch2_voltage_std ∧
      (acquire (acquire st true i1).2 true i2).2.drive_voltage
        = (acquire (acquire st true i1).2 true i2).2.drive_voltage_std ∧
      (acquire (acquire st true i1).2 true i2).2.last_mode_was_weak
        = false) := by
  have hm0 : st.excitation_mode ≠ 0 := by rw [hm]; decide
  have hm1 : st.excitation_mode ≠ 1 := by rw [hm]; decide
  obtain ⟨d1, t1, hi1, hd1, he1⟩ := acquire_success_form st true i1 h1
  have hw1 : storeAsWeak st = true := by
    unfold storeAsWeak
    rw [if_neg hm0, if_neg hm1]
    exact hwk
  have hst1 : (acquire st true i1).2
      = recordResult (afterCommandChoice st) true t1 := by
    rw [he1, hw1]
  have hmode1 : (acquire st true i1).2.excitation_mode = 2 := by
    rw [hst1, recordResult_mode, afterCommandChoice_mode, hm]
  have halt1 : (acquire st true i1).2.alt_use_weak = false := by
    rw [hst1, recordResult_alt_use_weak, afterCommandChoice_alt_flip st hm0 hm1,
      hwk]
    rfl
  obtain ⟨d2, t2, hi2, hd2, he2⟩ :=
    acquire_success_form ((acquire st true i1).2) true i2 h2
  have hw2 : storeAsWeak (acquire st true i1).2 = false := by
    unfold storeAsWeak
    rw [if_neg (by rw [hmode1]; decide), if_neg (by rw [hmode1]; decide)]
    exact halt1
  have hst2 : (acquire (acquire st true i1).2 true i2).2
      = recordResult (afterCommandChoice (acquire st true i1).2) false t2 := by
    rw [he2, hw2]
  constructor
  · rw [hst1]
    exact recordResult_weak_active _ t1
  · rw [hst2]
    exact recordResult_std_active _ t2

/-- C7 witness: two concrete successful acquisitions of the all-zero frame
from the Alternating state whose toggle requests Weak. -/
theorem alternating_active_matches_last_variant_witness :
    (altWeakState.excitation_mode = 2 ∧ altWeakState.alt_use_weak = true ∧
      (acquire altWeakState true (AcquireInput.received zeroFrame)).1 = true ∧
      (acquire (acquire altWeakState true (AcquireInput.received zeroFrame)).2
          true (AcquireInput.received zeroFrame)).1 = true) ∧
    ((acquire altWeakState true (AcquireInput.received zeroFrame)).2.ch1
        = (acquire altWeakState true
            (AcquireInput.received zeroFrame)).2.ch1_weak ∧
      (acquire (acquire altWeakState true
            (AcquireInput.received zeroFrame)).2 true
          (AcquireInput.received zeroFrame)).2.ch1
        = (acquire (acquire altWeakState true
              (AcquireInput.received zeroFrame)).2 true
            (AcquireInput.received zeroFrame)).2.ch1_std) := by
  have hs1 : (acquire altWeakState true (AcquireInput.received zeroFrame)).1
      = true := by
    simp [acquire, decode_zeroFrame]
  have hs2 : (acquire (acquire altWeakState true
      (AcquireInput.received zeroFrame)).2 true
      (AcquireInput.received zeroFrame)).1 = true := by
    simp [acquire, decode_zeroFrame]
  have hmain := alternating_active_matches_last_variant altWeakState
    (AcquireInput.received zeroFrame) (AcquireInput.received zeroFrame)
    (by decide) (by decide) hs1 hs2
  exact ⟨⟨by decide, by decide, hs1, hs2⟩, hmain.1.1, hmain.2.1⟩

theorem foldl_min_le_init (l : List ℚ) (a : ℚ) : l.foldl min a ≤ a := by
  induction l generalizing a with
  | nil => simp
  | cons x xs ih => exact le_trans (ih (min a x)) (min_le_left a x)

theorem init_le_foldl_max (l : List ℚ) (a : ℚ) : a ≤ l.foldl max a := by
  induction l generalizing a with
  | nil => simp
  | cons x xs ih => exact le_trans (le_max_left a x) (ih (max a x))

theorem foldl_min_le_mem (l : List ℚ) (a v : ℚ) (h : v ∈ l) :
    l.foldl min a ≤ v := by
  induction l generalizing a with
  | nil => simp at h
  | cons x xs ih =>
    rcases List.mem_cons.mp h with rfl | h2
    · exact le_trans (foldl_min_le_init xs (min a v)) (min_le_right a v)
    · exact ih (min a x) h2

theorem mem_le_foldl_max (l : List ℚ) (a v : ℚ) (h : v ∈ l) :
    v ≤ l.foldl max a := by
  induction l generalizing a with
  | nil => simp at h
  | cons x xs ih =>
    rcases List.mem_cons.mp h with rfl | h2
    · exact le_trans (le_max_right a v) (init_le_foldl_max xs (max a v))
    · exact ih (max a x) h2

theorem le_foldl_min (l : List ℚ) (a c : ℚ) (ha : c ≤ a)
    (h : ∀ v ∈ l, c ≤ v) : c ≤ l.foldl min a := by
  induction l generalizing a with
  | nil => simpa
  | cons x xs ih =>
    exact ih (min a x) (le_min ha (h x (by simp)))
      (fun v hv => h v (by simp [hv]))

theorem foldl_max_le (l : List ℚ) (a b : ℚ) (ha : a ≤ b)
    (h : ∀ v ∈ l, v ≤ b) : l.foldl max a ≤ b := by
  induction l generalizing a with
  | nil => simpa
  | cons x xs ih =>
    exact ih (max a x) (max_le ha (h x (by simp)))
      (fun v hv => h v (by simp [hv]))

theorem list_min_le_list_max (l : List ℚ) : list_min l ≤ list_max l := by
  cases l with
  | nil => simp [list_min, list_max]
  | cons a r =>
    exact le_trans (foldl_min_le_init r a) (init_le_foldl_max r a)

theorem list_min_bound (l : List ℚ) (c : ℚ) (hc : c ≤ 0)
    (h : ∀ v ∈ l, c ≤ v) : c ≤ list_min l := by
  cases l with
  | nil => simpa [list_min]
  | cons a r =>
    exact le_foldl_min r a c (h a (by simp)) (fun v hv => h v (by simp [hv]))

theorem list_max_bound (l : List ℚ) (b : ℚ) (hb : 0 ≤ b)
    (h : ∀ v ∈ l, v ≤ b) : list_max l ≤ b := by
  cases l with
  | nil => simpa [list_max]
  | cons a r =>
    exact foldl_max_le r a b (h a (by simp)) (fun v hv => h v (by simp [hv]))

theorem list_min_le_of_mem (l : List ℚ) (v : ℚ) (h : v ∈ l) :
    list_min l ≤ v := by
  cases l with
  | nil => simp at h
  | cons a r =>
    rcases List.mem_cons.mp h with rfl | h2
    · exact foldl_min_le_init r v
    · exact foldl_min_le_mem r a v h2

theorem le_list_max_of_mem (l : List ℚ) (v : ℚ) (h : v ∈ l) :
    v ≤ list_max l := by
  cases l with
  | nil => simp at h
  | cons a r =>
    rcases List.mem_cons.mp h with rfl | h2
    · exact init_le_foldl_max r v
    · exact mem_le_foldl_max r a v h2

theorem fitAllX_bounds (st : AppState) (hx : xDataBounded st) :
    ∀ v ∈ fitAllX st, 0 ≤ v ∧ v ≤ 4095 := by
  obtain ⟨b1, b2, b3, b4, b5, b6⟩ := hx
  intro v hv
  unfold fitAllX at hv
  split at hv
  · simp only [List.mem_append] at hv
    rcases hv with ((h | h) | h) | h
    · exact b1 v h
    · exact b2 v h
    · exact b3 v h
    · exact b4 v h
  · simp only [List.mem_append] at hv
    rcases hv with h | h
    · exact b5 v h
    · exact b6 v h

theorem fitAllY_bounds (st : AppState) (hy : yDataBounded st) :
    ∀ v ∈ fitAllY st, -4095 ≤ v ∧ v ≤ 4095 := by
  obtain ⟨b1, b2, b3, b4, b5, b6⟩ := hy
  intro v hv
  unfold fitAllY at hv
  split at hv
  · simp only [List.mem_append] at hv
    rcases hv with ((h | h) | h) | h
    · exact b1 v h
    · exact b2 v h
    · exact b3 v h
    · exact b4 v h
  · simp only [List.mem_append] at hv
    rcases hv with h | h
    · exact b5 v h
    · exact b6 v h

theorem fitZoomX_ge (st : AppState)
    (h : ∀ v ∈ fitAllX st, 0 ≤ v ∧ v ≤ 4095) : 1 / 10 ≤ fitZoomX st := by
  have hmin : (0 : ℚ) ≤ list_min (fitAllX st) :=
    list_min_bound _ 0 le_rfl (fun v hv => (h v hv).1)
  have hmax : list_max (fitAllX st) ≤ 4095 :=
    list_max_bound _ 4095 (by norm_num) (fun v hv => (h v hv).2)
  unfold fitZoomX
  split_ifs with hr
  · have hrange : fitDataXMax st - fitDataXMin st ≤ 5733 := by
      unfold fitDataXMax fitDataXMin
      linarith
    rw [le_div_iff₀ hr]
    have := mul_le_mul_of_nonneg_left hrange (by norm_num : (0:ℚ) ≤ 1 / 10)
    norm_num [ADC_MAX]
    linarith
  · norm_num

theorem fitZoomY_ge (st : AppState)
    (h : ∀ v ∈ fitAllY st, -4095 ≤ v ∧ v ≤ 4095) : 1 / 10 ≤ fitZoomY st := by
  have hmin : (-4095 : ℚ) ≤ list_min (fitAllY st) :=
    list_min_bound _ (-4095) (by norm_num) (fun v hv => (h v hv).1)
  have hmax : list_max (fitAllY st) ≤ 4095 :=
    list_max_bound _ 4095 (by norm_num) (fun v hv => (h v hv).2)
  unfold fitZoomY
  split_ifs with hr
  · have hrange : fitDataYMax st - fitDataYMin st ≤ 11466 := by
      unfold fitDataYMax fitDataYMin
      linarith
    rw [le_div_iff₀ hr]
    have := mul_le_mul_of_nonneg_left hrange (by norm_num : (0:ℚ) ≤ 1 / 10)
    norm_num [baseYMax, baseYMin, ADC_MAX]
    linarith
  · norm_num

theorem fitZoomX_pos (st : AppState) : 0 < fitZoomX st := by
  unfold fitZoomX
  split_ifs with h
  · exact div_pos (by norm_num [ADC_MAX]) h
  · norm_num

theorem fitZoomY_pos (st : AppState) : 0 < fitZoomY st := by
  unfold fitZoomY
  split_ifs with h
  · exact div_pos (by norm_num [baseYMax, baseYMin, ADC_MAX]) h
  · norm_num

theorem fitZoom_pos (st : AppState) : 0 < fitZoom st := by
  unfold fitZoom
  split_ifs with h
  · norm_num
  · exact lt_min (fitZoomX_pos st) (fitZoomY_pos st)

theorem fitZoom_ge (st : AppState)
    (hx : ∀ v ∈ fitAllX st, 0 ≤ v ∧ v ≤ 4095)
    (hy : ∀ v ∈ fitAllY st, -4095 ≤ v ∧ v ≤ 4095) :
    1 / 10 ≤ fitZoom st := by
  unfold fitZoom
  split_ifs with h
  · norm_num
  · exact le_min (fitZoomX_ge st hx) (fitZoomY_ge st hy)

/-- C5: zoomLevel at least 0.1 is an invariant: it holds initially and is
preserved by scroll zoom-in, scroll zoom-out (which clamps at 0.1),
reset_view, and fit_to_window on data decoded from valid frames (voltages
in [0, 4095], currents in [-4095, 4095]). -/
theorem zoom_level_invariant (st : AppState) (hz : 1 / 10 ≤ st.zoom_level)
    (hx : xDataBounded st) (hy : yDataBounded st) :
    1 / 10 ≤ initialState.zoom_level ∧
    (∀ s : ℚ, 1 / 10 ≤ (on_mouse_scroll st s).zoom_level) ∧
    1 / 10 ≤ (reset_view st).zoom_level ∧
    1 / 10 ≤ (fit_to_window st).zoom_level := by
  refine ⟨by norm_num [initialState], ?_, ?_, ?_⟩
  · intro s
    unfold on_mouse_scroll
    split_ifs with h1 h2
    · exact hz
    · show 1 / 10 ≤ st.zoom_level * (6 / 5)
      linarith
    · show 1 / 10 ≤ max (1 / 10) (st.zoom_level / (6 / 5))
      exact le_max_left _ _
  · show 1 / 10 ≤ (1 : ℚ)
    norm_num
  · unfold fit_to_window
    split_ifs with h
    · exact hz
    · show 1 / 10 ≤ fitZoom st
      exact fitZoom_ge st (fitAllX_bounds st hx) (fitAllY_bounds st hy)

/-- C5 witness: the invariant exercised on a one-point data state with
zoom 1. -/
theorem zoom_level_invariant_witness :
    (1 / 10 ≤ fitDemoState.zoom_level ∧ xDataBounded fitDemoState ∧
      yDataBounded fitDemoState) ∧
    (1 / 10 ≤ initialState.zoom_level ∧
      (∀ s : ℚ, 1 / 10 ≤ (on_mouse_scroll fitDemoState s).zoom_level) ∧
      1 / 10 ≤ (reset_view fitDemoState).zoom_level ∧
      1 / 10 ≤ (fit_to_window fitDemoState).zoom_level) := by
  have hz : 1 / 10 ≤ fitDemoState.zoom_level := by
    norm_num [fitDemoState, initialState]
  have hx : xDataBounded fitDemoState := by
    refine ⟨?_, ?_, ?_, ?_, ?_, ?_⟩ <;>
      simp [fitDemoState, initialState] <;> norm_num
  have hy : yDataBounded fitDemoState := by
    refine ⟨?_, ?_, ?_, ?_, ?_, ?_⟩ <;>
      simp [fitDemoState, initialState]
  exact ⟨⟨hz, hx, hy⟩, zoom_level_invariant fitDemoState hz hx hy⟩

theorem range_le_div (z r B : ℚ) (hz : 0 < z) (hB : 0 < B)
    (hle : z ≤ if 0 < r then B / r else 1) : r ≤ B / z := by
  by_cases hr : 0 < r
  · rw [if_pos hr] at hle
    have h1 : z * r ≤ B := by
      rw [le_div_iff₀ hr] at hle
      exact hle
    rw [le_div_iff₀ hz]
    nlinarith
  · have hpos : (0 : ℚ) < B / z := div_pos hB hz
    push_neg at hr
    linarith

theorem fitZoom_le_fitZoomX (st : AppState) : fitZoom st ≤ fitZoomX st := by
  unfold fitZoom
  split_ifs with h
  · exact le_trans (le_of_lt h) (min_le_left _ _)
  · exact min_le_left _ _

theorem fitZoom_le_fitZoomY (st : AppState) : fitZoom st ≤ fitZoomY st := by
  unfold fitZoom
  split_ifs with h
  · exact le_trans (le_of_lt h) (min_le_right _ _)
  · exact min_le_right _ _

/-- C6: with data present, fit_to_window sets the zoom to the smaller of
the X-fit and Y-fit factors clamped at 1, and sets the pan so that the
20%-padded bounding box of the visible data (and hence every visible data
point) lies inside the fixed-mode viewport; with either active series
empty it changes nothing. -/
theorem fit_to_window_behavior (st : AppState) :
    ((st.ch1 = [] ∨ st.ch2 = []) → fit_to_window st = st) ∧
    (st.ch1 ≠ [] → st.ch2 ≠ [] →
      (fit_to_window st).zoom_level
          = min (min (fitZoomX st) (fitZoomY st)) 1 ∧
      fixedXMin (fit_to_window st) ≤ fitDataXMin st ∧
      fitDataXMax st ≤ fixedXMax (fit_to_window st) ∧
      fixedYMin (fit_to_window st) ≤ fitDataYMin st ∧
      fitDataYMax st ≤ fixedYMax (fit_to_window st) ∧
      (∀ v ∈ fitAllX st, fitDataXMin st ≤ v ∧ v ≤ fitDataXMax st) ∧
      (∀ v ∈ fitAllY st, fitDataYMin st ≤ v ∧ v ≤ fitDataYMax st)) := by
  constructor
  · intro h
    unfold fit_to_window
    rw [if_pos h]
  · intro h1 h2
    have hne : ¬ (st.ch1 = [] ∨ st.ch2 = []) := by
      rintro (h | h)
      · exact h1 h
      · exact h2 h
    have hfit : fit_to_window st =
        { st with
          zoom_level := fitZoom st
          pan_offset_x :=
            (fitDataXMin st + fitDataXMax st) / 2 - (0 + ADC_MAX) / 2
          pan_offset_y :=
            (fitDataYMin st + fitDataYMax st) / 2 - (baseYMin + baseYMax) / 2 } := by
      unfold fit_to_window
      rw [if_neg hne]
    have hzpos : 0 < fitZoom st := fitZoom_pos st
    have hrx : fitDataXMax st - fitDataXMin st ≤ (ADC_MAX - 0) / fitZoom st :=
      range_le_div (fitZoom st) (fitDataXMax st - fitDataXMin st)
        (ADC_MAX - 0) hzpos (by norm_num [ADC_MAX]) (fitZoom_le_fitZoomX st)
    have hry : fitDataYMax st - fitDataYMin st
        ≤ (baseYMax - baseYMin) / fitZoom st :=
      range_le_div (fitZoom st) (fitDataYMax st - fitDataYMin st)
        (baseYMax - baseYMin) hzpos
        (by norm_num [baseYMax, baseYMin, ADC_MAX]) (fitZoom_le_fitZoomY st)
    have hzeq : (fit_to_window st).zoom_level = fitZoom st := by
      rw [hfit]
    have hspanx : list_min (fitAllX st) ≤ list_max (fitAllX st) :=
      list_min_le_list_max _
    have hspany : list_min (fitAllY st) ≤ list_max (fitAllY st) :=
      list_min_le_list_max _
    refine ⟨?_, ?_, ?_, ?_, ?_, ?_, ?_⟩
    · rw [hzeq]
      unfold fitZoom
      split_ifs with h
      · rw [eq_comm, min_eq_right]
        exact le_of_lt h
      · rw [eq_comm, min_eq_left]
        exact not_lt.mp h
    · unfold fixedXMin
      rw [hfit]
      show (ADC_MAX + 0) / 2
          + ((fitDataXMin st + fitDataXMax st) / 2 - (0 + ADC_MAX) / 2)
          - ((ADC_MAX - 0) / fitZoom st) / 2 ≤ fitDataXMin st
      linarith
    · unfold fixedXMax
      rw [hfit]
      show fitDataXMax st ≤ (ADC_MAX + 0) / 2
          + ((fitDataXMin st + fitDataXMax st) / 2 - (0 + ADC_MAX) / 2)
          + ((ADC_MAX - 0) / fitZoom st) / 2
      linarith
    · unfold fixedYMin
      rw [hfit]
      show (baseYMax + baseYMin) / 2
          + ((fitDataYMin st + fitDataYMax st) / 2 - (baseYMin + baseYMax) / 2)
          - ((baseYMax - baseYMin) / fitZoom st) / 2 ≤ fitDataYMin st
      linarith
    · unfold fixedYMax
      rw [hfit]
      show fitDataYMax st ≤ (baseYMax + baseYMin) / 2
          + ((fitDataYMin st + fitDataYMax st) / 2 - (baseYMin + baseYMax) / 2)
          + ((baseYMax - baseYMin) / fitZoom st) / 2
      linarith
    · intro v hv
      have hlo := list_min_le_of_mem _ v hv
      have hhi := le_list_max_of_mem _ v hv
      unfold fitDataXMin fitDataXMax
      constructor <;> linarith
    · intro v hv
      have hlo := list_min_le_of_mem _ v hv
      have hhi := le_list_max_of_mem _ v hv
      unfold fitDataYMin fitDataYMax
      constructor <;> linarith

/-- C6 witness: the fit behaviour on the one-point data state. -/
theorem fit_to_window_behavior_witness :
    (fitDemoState.ch1 ≠ [] ∧ fitDemoState.ch2 ≠ []) ∧
    ((fit_to_window fitDemoState).zoom_level
        = min (min (fitZoomX fitDemoState) (fitZoomY fitDemoState)) 1 ∧
      fixedXMin (fit_to_window fitDemoState) ≤ fitDataXMin fitDemoState ∧
      fitDataXMax fitDemoState ≤ fixedXMax (fit_to_window fitDemoState) ∧
      fixedYMin (fit_to_window fitDemoState) ≤ fitDataYMin fitDemoState ∧
      fitDataYMax fitDemoState ≤ fixedYMax (fit_to_window fitDemoState) ∧
      (∀ v ∈ fitAllX fitDemoState,
        fitDataXMin fitDemoState ≤ v ∧ v ≤ fitDataXMax fitDemoState) ∧
      (∀ v ∈ fitAllY fitDemoState,
        fitDataYMin fitDemoState ≤ v ∧ v ≤ fitDataYMax fitDemoState)) := by
  have hc1 : fitDemoState.ch1 ≠ [] := by
    simp [fitDemoState, initialState]
  have hc2 : fitDemoState.ch2 ≠ [] := by
    simp [fitDemoState, initialState]
  exact ⟨⟨hc1, hc2⟩, (fit_to_window_behavior fitDemoState).2 hc1 hc2⟩
